import Mathlib

/-!
Verification of the myFinPal finance engine (TypeScript sources under `src/`)
against its natural-language specification.

Shallow embedding conventions:
* JS `number` values that carry money amounts or exchange rates are modelled
  as exact rationals (`ℚ`); `Math.round` is JS round-half-toward-+∞, which is
  Lean's `round` on `ℚ`.
* JS plain objects used as string-keyed records (`Record<string, number>`,
  the monthly-summary accumulator, ...) are modelled as insertion-ordered
  association lists, because the code relies on `Object.entries` insertion
  order.
* Calendar dates (ISO `YYYY-MM-DD` strings in the code) are modelled as
  year/month/day triples with JS `Date` overflow normalisation
  (`setMonth`/`setDate` roll an out-of-range day into the following month).
  String comparison of ISO dates coincides with the lexicographic order on
  the triples, which on calendar dates (month 1..12, day 1..31) coincides
  with comparison of `MDate.encode`.
* Environment-produced values (UUIDs, `new Date()` "today") are passed in as
  explicit parameters; `loadData`/`saveData` become explicit state passing of
  the `FinanceData` document (the `lastUpdated` bookkeeping stamp is elided).
-/

namespace MyFinPal

/-! ## Currency engine — `src/core/currency.ts` -/

/-- `Math.round(x * 100) / 100`: round to 2 decimal places. -/
def round2 (q : ℚ) : ℚ := round (q * 100) / 100

/-- `Math.round(x * 10000) / 10000`: round to 4 decimal places. -/
def round4 (q : ℚ) : ℚ := round (q * 10000) / 10000

/-- JS `String.prototype.toUpperCase` on the ASCII currency-code strings the
engine handles (same as `String.toUpper`, stated over the character list so
that it evaluates inside the kernel). -/
def jsToUpper (s : String) : String := String.mk (s.data.map Char.toUpper)

/-- A JS `Record<string, number>` rate table, as an association list. -/
abbrev RateTable := List (String × ℚ)

/-- JS property lookup `rates[c]` on the record. -/
def lookupRate : RateTable → String → Option ℚ
  | [], _ => none
  | (k, v) :: rest, c => if k = c then some v else lookupRate rest c

/-- `rates[c] || 1`: a missing key (`undefined`) or a `0` value is falsy and
is replaced by `1`. -/
def rateOr1 (rates : RateTable) (c : String) : ℚ :=
  match lookupRate rates c with
  | none => 1
  | some r => if r = 0 then 1 else r

/-- `DEFAULT_EXCHANGE_RATES` from `src/core/types.ts` (USD-pivoted). -/
def DEFAULT_EXCHANGE_RATES : RateTable :=
  [("USD", 1), ("EUR", 92/100), ("GBP", 79/100), ("JPY", 14950/100),
   ("CAD", 136/100), ("AUD", 153/100), ("CHF", 88/100), ("CNY", 724/100),
   ("INR", 8312/100), ("MXN", 1715/100), ("BRL", 497/100), ("KRW", 132050/100)]

/-- `SUPPORTED_CURRENCIES` from `src/core/types.ts`. -/
def SUPPORTED_CURRENCIES : List String :=
  ["USD", "EUR", "GBP", "JPY", "CAD", "AUD", "CHF", "CNY", "INR", "MXN", "BRL", "KRW"]

/-- Return value of `convertCurrency`. -/
structure ConvResult where
  convertedAmount : ℚ
  rate : ℚ
deriving DecidableEq

/-- `convertCurrency(amount, fromCurrency, toCurrency, rates?)`:
pivot through USD, defaulting missing/zero rates to 1; same-currency
conversion (after uppercasing) short-circuits to the identity with rate 1. -/
def convertCurrency (amount : ℚ) (fromCurrency toCurrency : String)
    (rates : Option RateTable) : ConvResult :=
  let exchangeRates := rates.getD DEFAULT_EXCHANGE_RATES
  let fromC := jsToUpper fromCurrency
  let toC := jsToUpper toCurrency
  if fromC = toC then
    { convertedAmount := amount, rate := 1 }
  else
    let fromRate := rateOr1 exchangeRates fromC
    let toRate := rateOr1 exchangeRates toC
    let amountInUSD := amount / fromRate
    let convertedAmount := amountInUSD * toRate
    let rate := toRate / fromRate
    { convertedAmount := round2 convertedAmount, rate := round4 rate }

/-! ## Calendar dates — JS `Date` arithmetic as used by `src/core/recurring.ts`

The code stores dates as ISO `YYYY-MM-DD` strings and compares them with
string `<=`, which on such strings is exactly the lexicographic order on
(year, month, day).  JS `Date.setDate`/`setMonth`/`setFullYear` normalise an
out-of-range day by rolling it into the following month (e.g. Jan 31 + 1
month = Feb 31 = Mar 3), which `carryDay` reproduces: the overflow is at
most 10 days (day ≤ 31 plus at most 7), so a single carry step suffices. -/

structure MDate where
  year : Nat
  month : Nat
  day : Nat
deriving DecidableEq

def isLeapYear (y : Nat) : Bool := (y % 4 == 0 && y % 100 != 0) || y % 400 == 0

def daysInMonth (y m : Nat) : Nat :=
  if m = 2 then (if isLeapYear y then 29 else 28)
  else if m = 4 ∨ m = 6 ∨ m = 9 ∨ m = 11 then 30
  else 31

/-- JS `Date` day-overflow normalisation (single carry into the next month,
with year rollover). -/
def carryDay (y m d : Nat) : MDate :=
  if daysInMonth y m < d then
    if 12 < m + 1 then ⟨y + 1, m + 1 - 12, d - daysInMonth y m⟩
    else ⟨y, m + 1, d - daysInMonth y m⟩
  else ⟨y, m, d⟩

/-- Order-preserving encoding of calendar dates: on dates with month ≤ 12 and
day ≤ 31 (every date the engine constructs), `encode`-comparison coincides
with the ISO-string comparison the code performs. -/
def MDate.encode (d : MDate) : Nat := d.year * 403 + d.month * 31 + d.day

inductive Freq
  | daily | weekly | monthly | yearly
deriving DecidableEq

/-- `calculateNextDueDate(currentDate, frequency)` from `src/core/recurring.ts`:
daily/weekly add days via `setDate`, monthly adds one calendar month via
`setMonth`, yearly adds one year via `setFullYear`; each with JS overflow
normalisation. -/
def calculateNextDueDate (d : MDate) (frequency : Freq) : MDate :=
  match frequency with
  | .daily => carryDay d.year d.month (d.day + 1)
  | .weekly => carryDay d.year d.month (d.day + 7)
  | .monthly =>
      if 12 < d.month + 1 then carryDay (d.year + 1) (d.month + 1 - 12) d.day
      else carryDay d.year (d.month + 1) d.day
  | .yearly => carryDay (d.year + 1) d.month d.day

/-! ## Data model — `src/core/types.ts` (fields the engine logic reads;
environment bookkeeping such as `lastUpdated` is elided) -/

inductive TxType
  | income | expense
deriving DecidableEq

structure Transaction where
  id : String
  date : MDate
  amount : ℚ
  category : String
  description : String
  type : TxType
  tags : List String := []
  recurring : Bool := false
  recurringFrequency : Option Freq := none
  currency : Option String := none
deriving DecidableEq

structure RecurringTransaction where
  id : String
  amount : ℚ
  type : TxType
  category : String
  description : String
  frequency : Freq
  startDate : MDate
  nextDue : MDate
  lastProcessed : Option MDate := none
  active : Bool
  currency : Option String := none
deriving DecidableEq

structure GoalContribution where
  id : String
  amount : ℚ
  date : String
  note : Option String
deriving DecidableEq

structure SavingsGoal where
  id : String
  name : String
  targetAmount : ℚ
  currentAmount : ℚ
  deadline : Option String
  createdAt : String
  currency : String
  contributions : List GoalContribution
deriving DecidableEq

structure Budget where
  category : String
  limit : ℚ
  spent : ℚ
  alertThreshold : ℚ
deriving DecidableEq

/-- The persisted document (`loadData`/`saveData` become explicit state). -/
structure FinanceData where
  transactions : List Transaction
  budgets : List Budget
  recurringTransactions : List RecurringTransaction
  savingsGoals : List SavingsGoal
deriving DecidableEq

/-! ## Savings goals — `src/core/goals.ts`

`uuidv4()` and `new Date().toISOString().split('T')[0]` are environment
inputs, passed as the `cid`/`date` parameters. -/

/-- `createGoal(name, targetAmount, deadline?, currency)`. -/
def createGoal (id createdAt name : String) (targetAmount : ℚ)
    (deadline : Option String) (currency : String) : SavingsGoal :=
  { id := id, name := name, targetAmount := targetAmount, currentAmount := 0,
    deadline := deadline, createdAt := createdAt, currency := currency,
    contributions := [] }

structure GoalOpResult where
  success : Bool
  goal : Option SavingsGoal
  error : Option String
deriving DecidableEq

/-- The in-place mutation of the goal object that `find` returned: only the
first goal with the given id is affected. -/
def updateFirstGoal : List SavingsGoal → String → (SavingsGoal → SavingsGoal) →
    List SavingsGoal
  | [], _, _ => []
  | g :: gs, goalId, f =>
      if g.id = goalId then f g :: gs else g :: updateFirstGoal gs goalId f

/-- JS `note || 'Withdrawal'`: `undefined` and the empty string are falsy. -/
def jsOrDefault (note : Option String) (dflt : String) : String :=
  match note with
  | some s => if s = "" then dflt else s
  | none => dflt

/-- `addContribution(goalId, amount, note?)`: no validation of `amount`. -/
def addContribution (cid date : String) (goalId : String) (amount : ℚ)
    (note : Option String) (data : FinanceData) : GoalOpResult × FinanceData :=
  match data.savingsGoals.find? (fun g => g.id == goalId) with
  | none => ({ success := false, goal := none, error := some "Goal not found" }, data)
  | some goal =>
      let contribution : GoalContribution :=
        { id := cid, amount := amount, date := date, note := note }
      let mutate : SavingsGoal → SavingsGoal := fun g =>
        { g with contributions := g.contributions ++ [contribution],
                 currentAmount := g.currentAmount + amount }
      ({ success := true, goal := some (mutate goal), error := none },
       { data with savingsGoals := updateFirstGoal data.savingsGoals goalId mutate })

/-- `withdrawFromGoal(goalId, amount, note?)`: rejects `amount >
currentAmount`, otherwise appends a negative-amount contribution. -/
def withdrawFromGoal (cid date : String) (goalId : String) (amount : ℚ)
    (note : Option String) (data : FinanceData) : GoalOpResult × FinanceData :=
  match data.savingsGoals.find? (fun g => g.id == goalId) with
  | none => ({ success := false, goal := none, error := some "Goal not found" }, data)
  | some goal =>
      if goal.currentAmount < amount then
        ({ success := false, goal := none, error := some "Insufficient funds in goal" },
         data)
      else
        let contribution : GoalContribution :=
          { id := cid, amount := -amount, date := date,
            note := some (jsOrDefault note "Withdrawal") }
        let mutate : SavingsGoal → SavingsGoal := fun g =>
          { g with contributions := g.contributions ++ [contribution],
                   currentAmount := g.currentAmount - amount }
        ({ success := true, goal := some (mutate goal), error := none },
         { data with savingsGoals := updateFirstGoal data.savingsGoals goalId mutate })

/-- One mutation of the goals store, with its environment inputs. -/
inductive GoalOp
  | contribute (cid date goalId : String) (amount : ℚ) (note : Option String)
  | withdraw (cid date goalId : String) (amount : ℚ) (note : Option String)
deriving DecidableEq

def applyGoalOp (data : FinanceData) (op : GoalOp) : FinanceData :=
  match op with
  | .contribute cid date goalId amount note =>
      (addContribution cid date goalId amount note data).2
  | .withdraw cid date goalId amount note =>
      (withdrawFromGoal cid date goalId amount note data).2

/-- The ledger invariant: `currentAmount` equals the sum of the signed
contribution amounts. -/
def goalInv (g : SavingsGoal) : Prop :=
  g.currentAmount = (g.contributions.map (fun c => c.amount)).sum

instance (g : SavingsGoal) : Decidable (goalInv g) := by
  unfold goalInv; infer_instance

/-! ## Recurring transactions — `src/core/recurring.ts` -/

/-- The `Transaction` materialized from a due recurring entry (the fresh
`uuidv4()` id is environment-generated and opaque to all logic; it is elided
as `""`). -/
def materializeRec (r : RecurringTransaction) : Transaction :=
  { id := "", date := r.nextDue, amount := r.amount, category := r.category,
    description := r.description ++ " (recurring)", type := r.type,
    recurring := true, recurringFrequency := some r.frequency,
    currency := r.currency }

/-- One iteration of the catch-up loop body on the recurring entry:
`lastProcessed = nextDue; nextDue = calculateNextDueDate(nextDue, frequency)`. -/
def advanceRec (r : RecurringTransaction) : RecurringTransaction :=
  { r with lastProcessed := some r.nextDue,
           nextDue := calculateNextDueDate r.nextDue r.frequency }

/-- Bounds needed to show the catch-up loop terminates. -/
theorem daysInMonth_bounds (y m : Nat) :
    28 ≤ daysInMonth y m ∧ daysInMonth y m ≤ 31 := by
  unfold daysInMonth
  split_ifs <;> omega

/-- `calculateNextDueDate` strictly advances the date (in the order the
code's ISO-string comparison realises), for every frequency; this justifies
termination of the `while (nextDue <= today)` loop. -/
theorem encode_lt_calculateNextDueDate (d : MDate) (f : Freq) :
    d.encode < (calculateNextDueDate d f).encode := by
  obtain ⟨y, m, day⟩ := d
  have b0 := daysInMonth_bounds y m
  have b1 := daysInMonth_bounds (y + 1) (m + 1 - 12)
  have b2 := daysInMonth_bounds y (m + 1)
  have b3 := daysInMonth_bounds (y + 1) m
  cases f <;>
    simp only [calculateNextDueDate, carryDay, MDate.encode] <;>
    split_ifs <;> simp only [MDate.encode] <;> omega

/-- The per-entry `while (recurring.nextDue <= today)` catch-up loop of
`processRecurringTransactions`: materialize one transaction per due date,
advancing `nextDue` one frequency unit each time.  The code compares ISO
date strings; on calendar dates that order is `MDate.encode` comparison. -/
def processEntry (today : MDate) (r : RecurringTransaction) :
    List Transaction × RecurringTransaction :=
  if _h : r.nextDue.encode ≤ today.encode then
    let rest := processEntry today (advanceRec r)
    (materializeRec r :: rest.1, rest.2)
  else ([], r)
termination_by today.encode + 1 - r.nextDue.encode
decreasing_by
  simp only [advanceRec]
  have := encode_lt_calculateNextDueDate r.nextDue r.frequency
  omega

/-- `processRecurringTransactions()`: run the catch-up loop over every
active recurring entry (inactive ones are skipped unchanged), append the
materialized transactions to the ledger, and return their count and list. -/
def processRecurringTransactions (today : MDate) (data : FinanceData) :
    (Nat × List Transaction) × FinanceData :=
  let step := fun (acc : List Transaction × List RecurringTransaction)
      (r : RecurringTransaction) =>
    if r.active then
      let res := processEntry today r
      (acc.1 ++ res.1, acc.2 ++ [res.2])
    else (acc.1, acc.2 ++ [r])
  let res := data.recurringTransactions.foldl step ([], [])
  ((res.1.length, res.1),
   { data with transactions := data.transactions ++ res.1,
               recurringTransactions := res.2 })

/-! ## Storage helpers — `src/core/storage.ts`

`getCurrentMonthTransactions` reads the clock; the current month/year are
passed as parameters (both 1-based here; the code compares the 0-based
`getMonth()` of the transaction and of `now`, an equivalent test). -/

def getCurrentMonthTransactions (nowYear nowMonth : Nat) (data : FinanceData) :
    List Transaction :=
  data.transactions.filter
    (fun t => t.date.month == nowMonth && t.date.year == nowYear)

/-- `spending[cat] = (spending[cat] || 0) + amount` on a JS object: update the
existing key in place (insertion order is preserved) or append a new one. -/
def upsertAdd : List (String × ℚ) → String → ℚ → List (String × ℚ)
  | [], cat, amt => [(cat, amt)]
  | (k, v) :: rest, cat, amt =>
      if k = cat then (k, v + amt) :: rest else (k, v) :: upsertAdd rest cat amt

/-- `calculateSpendingByCategory`: totals of expense transactions per
category, keyed in first-occurrence order. -/
def calculateSpendingByCategory (transactions : List Transaction) :
    List (String × ℚ) :=
  (transactions.filter (fun t => t.type == TxType.expense)).foldl
    (fun spending t => upsertAdd spending t.category t.amount) []

/-! ## Analytics — `src/core/analytics.ts` -/

/-- JS `Number.prototype.toFixed(0)`: round to nearest, ties toward +∞. -/
def toFixed0 (q : ℚ) : String := toString (round q)

/-- Insert into a descending-by-amount list, placing the new element before
strictly smaller amounts and after earlier equal amounts. -/
def insertByAmountDesc (x : String × ℚ) : List (String × ℚ) → List (String × ℚ)
  | [] => [x]
  | y :: ys => if y.2 ≤ x.2 then x :: y :: ys else y :: insertByAmountDesc x ys

/-- JS `Array.prototype.sort((a, b) => b.amount - a.amount)` is a stable sort
(ES2019) for the total, transitive comparison by amount; every stable sort
for such a comparison produces the same list as this insertion sort. -/
def sortByAmountDesc (l : List (String × ℚ)) : List (String × ℚ) :=
  l.foldr insertByAmountDesc []

structure SpendingAnalysis where
  totalIncome : ℚ
  totalExpenses : ℚ
  netSavings : ℚ
  byCategory : List (String × ℚ)
  topCategories : List (String × ℚ)
deriving DecidableEq

/-- `analyzeSpending(data)`: current-month income/expense totals, per-category
expense map, and the top 5 categories by amount (descending, stable). -/
def analyzeSpending (nowYear nowMonth : Nat) (data : FinanceData) :
    SpendingAnalysis :=
  let monthlyTransactions := getCurrentMonthTransactions nowYear nowMonth data
  let totalIncome := (monthlyTransactions.filter
    (fun t => t.type == TxType.income)).foldl (fun sum t => sum + t.amount) 0
  let totalExpenses := (monthlyTransactions.filter
    (fun t => t.type == TxType.expense)).foldl (fun sum t => sum + t.amount) 0
  let byCategory := calculateSpendingByCategory monthlyTransactions
  let topCategories := (sortByAmountDesc byCategory).take 5
  { totalIncome := totalIncome, totalExpenses := totalExpenses,
    netSavings := totalIncome - totalExpenses, byCategory := byCategory,
    topCategories := topCategories }

structure SpendingInsight where
  type : String
  message : String
  category : Option String := none
  amount : Option ℚ := none
  amounts : Option (List ℚ) := none
deriving DecidableEq

/-- The over-limit alert message (`{0}`/`{1}` are placeholders the frontend
fills with the amounts). -/
def budgetExceededMsg (category : String) : String :=
  "🚨 Budget EXCEEDED for " ++ category ++ "! Spent \x7b0\x7d of \x7b1\x7d limit."

/-- The softer near-threshold alert message. -/
def budgetNearMsg (category : String) (percentUsed : ℚ) : String :=
  "⚠️ " ++ category ++ " budget at " ++ toFixed0 percentUsed ++
    "% (\x7b0\x7d of \x7b1\x7d)"

/-- `checkBudgetAlerts(data)`: per budget, current-month spend in its
category; `spent/limit ≥ 100%` emits the exceeded warning with
`amount = spent - limit`, else `≥ alertThreshold%` emits the softer warning
with `amount = limit - spent`. -/
def checkBudgetAlerts (nowYear nowMonth : Nat) (data : FinanceData) :
    List SpendingInsight :=
  let monthlyTransactions := getCurrentMonthTransactions nowYear nowMonth data
  let spending := calculateSpendingByCategory monthlyTransactions
  data.budgets.foldl (fun insights budget =>
    let spent := (lookupRate spending budget.category).getD 0
    let percentUsed := spent / budget.limit * 100
    if 100 ≤ percentUsed then
      insights ++
        [{ type := "warning", message := budgetExceededMsg budget.category,
           category := some budget.category, amount := some (spent - budget.limit),
           amounts := some [spent, budget.limit] }]
    else if budget.alertThreshold ≤ percentUsed then
      insights ++
        [{ type := "warning", message := budgetNearMsg budget.category percentUsed,
           category := some budget.category, amount := some (budget.limit - spent),
           amounts := some [spent, budget.limit] }]
    else insights) []

/-! ## Monthly-summary CSV export — `src/core/export.ts`

The string keys `"YYYY-MM"` of the accumulator object are modelled as
`(year, month)` pairs (two such keys are equal strings iff the pairs are
equal, for 4-digit years); `t.date.substring(0, 7)` is `(year, month)` of the
transaction, and `t.date.startsWith(String(targetYear))` keeps exactly the
target year's transactions (a same-prefix date from another year would be
dropped by the `if (monthlyData[monthKey])` guard anyway). -/

structure MonthAgg where
  income : ℚ
  expenses : ℚ
  transactions : Nat
deriving DecidableEq

/-- The accumulator initialised with all 12 months of the target year. -/
def initMonthly (targetYear : Nat) : List ((Nat × Nat) × MonthAgg) :=
  (List.range 12).map (fun month => ((targetYear, month + 1), ⟨0, 0, 0⟩))

/-- JS object property update: only an existing key is updated (keys are
unique in an object; the accumulator's keys are distinct by construction). -/
def updateIfPresent (md : List ((Nat × Nat) × MonthAgg)) (k : Nat × Nat)
    (f : MonthAgg → MonthAgg) : List ((Nat × Nat) × MonthAgg) :=
  match md with
  | [] => []
  | (k', v) :: rest =>
      if k' = k then (k', f v) :: rest else (k', v) :: updateIfPresent rest k f

/-- `monthlyData[monthKey].transactions++` plus the income/expense update. -/
def addTxAgg (a : MonthAgg) (t : Transaction) : MonthAgg :=
  { income := a.income + (if t.type == TxType.income then t.amount else 0),
    expenses := a.expenses + (if t.type == TxType.income then 0 else t.amount),
    transactions := a.transactions + 1 }

def applyTxToMonthly (md : List ((Nat × Nat) × MonthAgg)) (t : Transaction) :
    List ((Nat × Nat) × MonthAgg) :=
  updateIfPresent md (t.date.year, t.date.month) (fun a => addTxAgg a t)

/-- The filled accumulator of `exportMonthlySummaryToCSV`. -/
def monthlySummaryData (targetYear : Nat) (data : FinanceData) :
    List ((Nat × Nat) × MonthAgg) :=
  (data.transactions.filter (fun t => t.date.year == targetYear)).foldl
    applyTxToMonthly (initMonthly targetYear)

inductive RowLabel
  | month (year m : Nat)
  | total
deriving DecidableEq

/-- One data row of the monthly-summary CSV (amount cells kept as exact
rationals; `toFixed(2)` string rendering is presentation only). -/
structure SummaryRow where
  label : RowLabel
  income : ℚ
  expenses : ℚ
  net : ℚ
  transactions : Nat
deriving DecidableEq

/-- The data rows of `exportMonthlySummaryToCSV(year?)`: one row per
accumulator entry (`Object.entries` order) followed by the TOTAL row
(`Object.values(...).reduce(...)`). -/
def exportMonthlySummaryRows (targetYear : Nat) (data : FinanceData) :
    List SummaryRow :=
  let monthlyData := monthlySummaryData targetYear data
  let rows := monthlyData.map (fun p =>
    { label := RowLabel.month p.1.1 p.1.2, income := p.2.income,
      expenses := p.2.expenses, net := p.2.income - p.2.expenses,
      transactions := p.2.transactions })
  let totals := monthlyData.foldl (fun acc p =>
    ({ income := acc.income + p.2.income, expenses := acc.expenses + p.2.expenses,
       transactions := acc.transactions + p.2.transactions } : MonthAgg))
    (⟨0, 0, 0⟩ : MonthAgg)
  rows ++
    [{ label := RowLabel.total, income := totals.income,
       expenses := totals.expenses, net := totals.income - totals.expenses,
       transactions := totals.transactions }]

/-! Specification-level month aggregates, used to state what the export
must contain. -/

/-- The target-year transactions falling in month `m`. -/
def monthTxs (targetYear m : Nat) (data : FinanceData) : List Transaction :=
  data.transactions.filter
    (fun t => (t.date.year, t.date.month) == (targetYear, m))

def monthIncome (targetYear m : Nat) (data : FinanceData) : ℚ :=
  (((monthTxs targetYear m data).filter
    (fun t => t.type == TxType.income)).map (fun t => t.amount)).sum

def monthExpenses (targetYear m : Nat) (data : FinanceData) : ℚ :=
  (((monthTxs targetYear m data).filter
    (fun t => !(t.type == TxType.income))).map (fun t => t.amount)).sum

def monthCount (targetYear m : Nat) (data : FinanceData) : Nat :=
  (monthTxs targetYear m data).length

/-- A concrete monthly recurring entry due since 2024-12-01, used as a test
document below. -/
def rRent : RecurringTransaction :=
  ⟨"r1", 100, .expense, "Bills", "Rent", .monthly,
   ⟨2024, 12, 1⟩, ⟨2024, 12, 1⟩, none, true, none⟩

/-- A concrete document containing only `rRent`, processed on 2025-03-01
(exactly 3 calendar months after the entry's start). -/
def dRent : FinanceData := ⟨[], [], [rRent], []⟩

/-- A concrete document with a 500-limit "Food" budget and 510 of
current-month (2025-03) Food expenses. -/
def dBudget : FinanceData :=
  ⟨[⟨"t1", ⟨2025, 3, 5⟩, 510, "Food", "Groceries run", .expense, [], false, none, none⟩],
   [⟨"Food", 500, 0, 80⟩], [], []⟩

/-- A concrete document whose 2025-03 expenses total Food = 300,
Travel = 300 (tie, Food first in input order) and Gas = 100. -/
def dTopCat : FinanceData :=
  ⟨[⟨"t1", ⟨2025, 3, 2⟩, 300, "Food", "a", .expense, [], false, none, none⟩,
    ⟨"t2", ⟨2025, 3, 3⟩, 300, "Travel", "b", .expense, [], false, none, none⟩,
    ⟨"t3", ⟨2025, 3, 4⟩, 100, "Gas", "c", .expense, [], false, none, none⟩],
   [], [], []⟩

/-- A concrete goal holding 30 (ledger: one deposit of 30), used as a test
document below. -/
def gTrip : SavingsGoal :=
  ⟨"g1", "Trip", 1000, 30, none, "2025-01-01", "USD", [⟨"c1", 30, "2025-01-02", none⟩]⟩

/-- A concrete document containing only `gTrip`. -/
def dTrip : FinanceData := ⟨[], [], [], [gTrip]⟩

end MyFinPal

namespace MyFinPal

/-! ### Currency lemmas -/

theorem round2_sub_abs_le (q : ℚ) : |round2 q - q| ≤ 1 / 200 := by
  have h : |q * 100 - round (q * 100)| ≤ 1 / 2 := abs_sub_round (q * 100)
  rw [abs_sub_comm] at h
  have : round2 q - q = (round (q * 100) - q * 100) / 100 := by
    unfold round2; ring
  rw [this, abs_div]
  rw [show |(100 : ℚ)| = 100 by norm_num]
  linarith

theorem lookupRate_pos {table : RateTable} (hpos : ∀ p ∈ table, 0 < p.2) :
    ∀ c r, lookupRate table c = some r → 0 < r := by
  induction table with
  | nil => intro c r h; simp [lookupRate] at h
  | cons p rest ih =>
    intro c r h
    rw [lookupRate] at h
    by_cases hk : p.1 = c
    · rw [if_pos hk] at h
      cases h
      exact hpos p (List.mem_cons_self p rest)
    · rw [if_neg hk] at h
      exact ih (fun q hq => hpos q (List.mem_cons_of_mem p hq)) c r h

theorem rateOr1_pos {table : RateTable} (hpos : ∀ p ∈ table, 0 < p.2)
    (c : String) : 0 < rateOr1 table c := by
  unfold rateOr1
  cases h : lookupRate table c with
  | none => norm_num
  | some r =>
    by_cases hr : r = 0
    · simp [hr]
    · simp only [if_neg hr]
      exact lookupRate_pos hpos c r h

theorem default_rates_pos : ∀ p ∈ DEFAULT_EXCHANGE_RATES, 0 < p.2 := by
  intro p hp
  simp only [DEFAULT_EXCHANGE_RATES, List.mem_cons, List.not_mem_nil, or_false] at hp
  rcases hp with rfl | rfl | rfl | rfl | rfl | rfl | rfl | rfl | rfl | rfl | rfl | rfl <;>
    norm_num

theorem rateOr1_eq_one {rates : RateTable} {c : String}
    (h : lookupRate rates c = none ∨ lookupRate rates c = some 0) :
    rateOr1 rates c = 1 := by
  unfold rateOr1
  rcases h with h | h <;> rw [h]
  simp

theorem rateOr1_ne_zero (rates : RateTable) (c : String) : rateOr1 rates c ≠ 0 := by
  unfold rateOr1
  cases h : lookupRate rates c with
  | none => norm_num
  | some r =>
    by_cases hr : r = 0
    · simp [hr]
    · simp only [if_neg hr]
      exact hr

theorem lookupRate_default_KRW :
    lookupRate DEFAULT_EXCHANGE_RATES "KRW" = some (132050/100) := rfl

theorem lookupRate_default_GBP :
    lookupRate DEFAULT_EXCHANGE_RATES "GBP" = some (79/100) := rfl

theorem rateOr1_default_KRW : rateOr1 DEFAULT_EXCHANGE_RATES "KRW" = 132050 / 100 := by
  rw [rateOr1]
  norm_num [lookupRate_default_KRW]

theorem rateOr1_default_GBP : rateOr1 DEFAULT_EXCHANGE_RATES "GBP" = 79 / 100 := by
  rw [rateOr1]
  norm_num [lookupRate_default_GBP]

theorem convert_krw_gbp :
    (convertCurrency 1000 "KRW" "GBP" none).convertedAmount = 3 / 5 := by
  have hK : jsToUpper "KRW" = "KRW" := rfl
  have hG : jsToUpper "GBP" = "GBP" := rfl
  simp only [convertCurrency, hK, hG, Option.getD]
  rw [if_neg (by decide : ¬ ("KRW" : String) = "GBP")]
  simp only [rateOr1_default_KRW, rateOr1_default_GBP, round2]
  norm_num [round_eq]

theorem convert_gbp_krw :
    (convertCurrency (3 / 5) "GBP" "KRW" none).convertedAmount = 100291 / 100 := by
  have hK : jsToUpper "KRW" = "KRW" := rfl
  have hG : jsToUpper "GBP" = "GBP" := rfl
  simp only [convertCurrency, hK, hG, Option.getD]
  rw [if_neg (by decide : ¬ ("GBP" : String) = "KRW")]
  simp only [rateOr1_default_KRW, rateOr1_default_GBP, round2]
  norm_num [round_eq]

/-- C4: for every amount `x`, every currency code `C` (in any letter case) and
every optional rate table, `convertCurrency x C C rates` returns the amount
unchanged (no rounding applied) with rate exactly 1, because both codes
uppercase to the same string and the same-currency branch short-circuits. -/
theorem C4_same_currency_identity (x : ℚ) (C : String) (rates : Option RateTable) :
    convertCurrency x C C rates = { convertedAmount := x, rate := 1 } := by
  unfold convertCurrency
  simp

/-- C5 (counterexample): the claimed 2-decimal-place round-trip tolerance fails
at `x = 1000`, `A = "KRW"`, `B = "GBP"` with the default rate table: the
round trip returns 1002.91, an error of 2.91. -/
theorem C5_counterexample :
    ¬ (|(convertCurrency (convertCurrency 1000 "KRW" "GBP" none).convertedAmount
        "GBP" "KRW" none).convertedAmount - 1000| ≤ 1 / 100) := by
  rw [convert_krw_gbp, convert_gbp_krw]
  rw [abs_of_pos (by norm_num)]
  norm_num

/-- C5 (amended): the USD-pivoted round trip `convert(convert(x, A, B), B, A)`
is within `(rate A / rate B) / 200 + 1 / 200` of `x` — the half-cent rounding
error made in the target currency `B` is scaled back up by the rate ratio, so
the tolerance grows with `rate A / rate B` instead of being a fixed 2-decimal
tolerance. -/
theorem C5_pivot_roundtrip_bounded (x : ℚ) (a b : String) :
    |(convertCurrency (convertCurrency x a b none).convertedAmount b a
        none).convertedAmount - x| ≤
      rateOr1 DEFAULT_EXCHANGE_RATES (jsToUpper a) /
          rateOr1 DEFAULT_EXCHANGE_RATES (jsToUpper b) * (1 / 200) + 1 / 200 := by
  have hA : 0 < rateOr1 DEFAULT_EXCHANGE_RATES (jsToUpper a) :=
    rateOr1_pos default_rates_pos _
  have hB : 0 < rateOr1 DEFAULT_EXCHANGE_RATES (jsToUpper b) :=
    rateOr1_pos default_rates_pos _
  set rA := rateOr1 DEFAULT_EXCHANGE_RATES (jsToUpper a) with hrA
  set rB := rateOr1 DEFAULT_EXCHANGE_RATES (jsToUpper b) with hrB
  by_cases h : jsToUpper a = jsToUpper b
  · simp only [convertCurrency, Option.getD, h, if_pos]
    simp only [sub_self, abs_zero]
    positivity
  · simp only [convertCurrency, Option.getD]
    rw [if_neg h, if_neg (fun e => h e.symm)]
    simp only [← hrA, ← hrB]
    set y := x / rA * rB with hy
    set c1 := round2 y with hc1
    have h1 : |c1 - y| ≤ 1 / 200 := round2_sub_abs_le y
    have h2 : |round2 (c1 / rB * rA) - c1 / rB * rA| ≤ 1 / 200 :=
      round2_sub_abs_le (c1 / rB * rA)
    have key : c1 / rB * rA - x = (c1 - y) * (rA / rB) := by
      rw [hy]; field_simp; ring
    have tri : |round2 (c1 / rB * rA) - x| ≤
        |round2 (c1 / rB * rA) - c1 / rB * rA| + |c1 / rB * rA - x| := by
      have := abs_add (round2 (c1 / rB * rA) - c1 / rB * rA) (c1 / rB * rA - x)
      simpa using this
    have hkey : |c1 / rB * rA - x| ≤ 1 / 200 * (rA / rB) := by
      rw [key, abs_mul, abs_of_pos (div_pos hA hB)]
      have := div_pos hA hB
      gcongr
    calc |round2 (c1 / rB * rA) - x| ≤
        |round2 (c1 / rB * rA) - c1 / rB * rA| + |c1 / rB * rA - x| := tri
      _ ≤ 1 / 200 + 1 / 200 * (rA / rB) := add_le_add h2 hkey
      _ = rA / rB * (1 / 200) + 1 / 200 := by ring

/-- C10: `convertCurrency` is total in the rate table — for distinct
(uppercased) currencies, a source or target code that is absent from the
table or mapped to `0` gets rate 1 substituted (`rates[c] || 1`), the
effective source rate is never 0, and the returned value is the pivot
formula evaluated at those substituted rates. -/
theorem C10_rate_substitution_total (rates : RateTable) (fromCur toCur : String)
    (x : ℚ) (hne : jsToUpper fromCur ≠ jsToUpper toCur) :
    ((lookupRate rates (jsToUpper fromCur) = none ∨
        lookupRate rates (jsToUpper fromCur) = some 0) →
      rateOr1 rates (jsToUpper fromCur) = 1) ∧
    ((lookupRate rates (jsToUpper toCur) = none ∨
        lookupRate rates (jsToUpper toCur) = some 0) →
      rateOr1 rates (jsToUpper toCur) = 1) ∧
    rateOr1 rates (jsToUpper fromCur) ≠ 0 ∧
    convertCurrency x fromCur toCur (some rates) =
      { convertedAmount := round2 (x / rateOr1 rates (jsToUpper fromCur) *
          rateOr1 rates (jsToUpper toCur)),
        rate := round4 (rateOr1 rates (jsToUpper toCur) /
          rateOr1 rates (jsToUpper fromCur)) } := by
  refine ⟨fun h => rateOr1_eq_one h, fun h => rateOr1_eq_one h,
    rateOr1_ne_zero rates _, ?_⟩
  simp only [convertCurrency, Option.getD]
  rw [if_neg hne]

/-! ### Savings-goal theorems -/

theorem mem_updateFirstGoal {gs : List SavingsGoal} {gid : String}
    {f : SavingsGoal → SavingsGoal} :
    ∀ g' ∈ updateFirstGoal gs gid f, g' ∈ gs ∨ ∃ g ∈ gs, g' = f g := by
  induction gs with
  | nil => intro g' h; simp [updateFirstGoal] at h
  | cons g gs ih =>
    intro g' h
    rw [updateFirstGoal] at h
    by_cases hid : g.id = gid
    · rw [if_pos hid] at h
      rcases List.mem_cons.mp h with rfl | h
      · exact Or.inr ⟨g, List.mem_cons_self g gs, rfl⟩
      · exact Or.inl (List.mem_cons_of_mem g h)
    · rw [if_neg hid] at h
      rcases List.mem_cons.mp h with rfl | h
      · exact Or.inl (List.mem_cons_self g' gs)
      · rcases ih g' h with h' | ⟨g₀, hg₀, rfl⟩
        · exact Or.inl (List.mem_cons_of_mem g h')
        · exact Or.inr ⟨g₀, List.mem_cons_of_mem g hg₀, rfl⟩

theorem goalInv_append (g : SavingsGoal) (c : GoalContribution) (x : ℚ)
    (hinv : goalInv g) (hx : x = c.amount) :
    goalInv { g with contributions := g.contributions ++ [c],
                     currentAmount := g.currentAmount + x } := by
  unfold goalInv at hinv ⊢
  simp [hinv, hx]

theorem applyGoalOp_preserves (d : FinanceData) (op : GoalOp)
    (h : ∀ g ∈ d.savingsGoals, goalInv g) :
    ∀ g ∈ (applyGoalOp d op).savingsGoals, goalInv g := by
  cases op with
  | contribute cid date goalId amount note =>
    cases hf : d.savingsGoals.find? (fun g => g.id == goalId) with
    | none => simpa [applyGoalOp, addContribution, hf] using h
    | some goal =>
      simp only [applyGoalOp, addContribution, hf]
      intro g' hg'
      rcases mem_updateFirstGoal g' hg' with hg' | ⟨g₀, hg₀, rfl⟩
      · exact h g' hg'
      · exact goalInv_append g₀ _ _ (h g₀ hg₀) rfl
  | withdraw cid date goalId amount note =>
    cases hf : d.savingsGoals.find? (fun g => g.id == goalId) with
    | none => simpa [applyGoalOp, withdrawFromGoal, hf] using h
    | some goal =>
      by_cases hlt : goal.currentAmount < amount
      · simpa [applyGoalOp, withdrawFromGoal, hf, hlt] using h
      · simp only [applyGoalOp, withdrawFromGoal, hf, if_neg hlt]
        intro g' hg'
        rcases mem_updateFirstGoal g' hg' with hg' | ⟨g₀, hg₀, rfl⟩
        · exact h g' hg'
        · have := goalInv_append g₀
            { id := cid, amount := -amount, date := date,
              note := some (jsOrDefault note "Withdrawal") } (-amount)
            (h g₀ hg₀) rfl
          simpa [sub_eq_add_neg] using this

theorem foldl_applyGoalOp_preserves (ops : List GoalOp) :
    ∀ d : FinanceData, (∀ g ∈ d.savingsGoals, goalInv g) →
      ∀ g ∈ (ops.foldl applyGoalOp d).savingsGoals, goalInv g := by
  induction ops with
  | nil => intro d h; simpa using h
  | cons op ops ih =>
    intro d h
    rw [List.foldl_cons]
    exact ih (applyGoalOp d op) (applyGoalOp_preserves d op h)

/-- C1: starting from a freshly created goal (zero `currentAmount`, empty
ledger), after any sequence of `addContribution`/`withdrawFromGoal`
operations every goal's `currentAmount` equals the sum of the signed amounts
in its contributions ledger — each successful mutation updates ledger and
running total together. -/
theorem C1_goal_ledger_invariant (gid createdAt name : String) (target : ℚ)
    (deadline : Option String) (currency : String) (ops : List GoalOp)
    (d0 : FinanceData)
    (h0 : d0.savingsGoals = [createGoal gid createdAt name target deadline currency]) :
    ∀ g ∈ (ops.foldl applyGoalOp d0).savingsGoals, goalInv g := by
  apply foldl_applyGoalOp_preserves
  rw [h0]
  intro g hg
  rcases List.mem_singleton.mp hg with rfl
  unfold goalInv createGoal
  simp

/-- Witness for C1: two concrete operations (a 50 deposit then a 20
withdrawal) on a fresh goal leave `currentAmount = 30 = 50 + (-20)`. -/
theorem C1_goal_ledger_invariant_witness :
    goalInv ((([GoalOp.contribute "c1" "2025-01-02" "g1" 50 none,
        GoalOp.withdraw "c2" "2025-01-03" "g1" 20 none].foldl applyGoalOp
        ⟨[], [], [], [createGoal "g1" "2025-01-01" "Trip" 1000 none "USD"]⟩
      ).savingsGoals).getD 0 (createGoal "z" "z" "z" 0 none "USD")) := by
  have h := C1_goal_ledger_invariant "g1" "2025-01-01" "Trip" 1000 none "USD"
    [GoalOp.contribute "c1" "2025-01-02" "g1" 50 none,
     GoalOp.withdraw "c2" "2025-01-03" "g1" 20 none]
    ⟨[], [], [], [createGoal "g1" "2025-01-01" "Trip" 1000 none "USD"]⟩ rfl
  apply h
  norm_num [applyGoalOp, addContribution, withdrawFromGoal, updateFirstGoal,
    createGoal, jsOrDefault, List.find?]

/-- C3: a withdrawal strictly greater than the goal's `currentAmount` fails
(`success = false`, error "Insufficient funds in goal") and returns the
document completely unchanged — no partial mutation of ledger or total. -/
theorem C3_overdraw_rejected_unchanged (cid date goalId : String) (amount : ℚ)
    (note : Option String) (d : FinanceData) (g : SavingsGoal)
    (hfind : d.savingsGoals.find? (fun g => g.id == goalId) = some g)
    (hover : g.currentAmount < amount) :
    withdrawFromGoal cid date goalId amount note d =
      ({ success := false, goal := none, error := some "Insufficient funds in goal" },
       d) := by
  rw [withdrawFromGoal, hfind]
  simp [hover]

/-- Witness for C3: withdrawing 100 from a goal holding 30 fails and leaves
the document untouched. -/
theorem C3_overdraw_rejected_unchanged_witness :
    withdrawFromGoal "c9" "2025-02-01" "g1" 100 none dTrip =
      ({ success := false, goal := none, error := some "Insufficient funds in goal" },
       dTrip) := by
  apply C3_overdraw_rejected_unchanged "c9" "2025-02-01" "g1" 100 none dTrip gTrip
  · rfl
  · norm_num [gTrip]

/-- C9: `addContribution` validates nothing — for every existing goal and
every amount (zero and negatives included) it succeeds, appends a
contribution with exactly that signed amount, and sets `currentAmount` to
the previous value plus the amount; a sufficiently negative amount therefore
drives `currentAmount` below zero, bypassing `withdrawFromGoal`'s
insufficient-funds guard. -/
theorem C9_contribution_unvalidated (cid date goalId : String) (amount : ℚ)
    (note : Option String) (d : FinanceData) (g : SavingsGoal)
    (hfind : d.savingsGoals.find? (fun g => g.id == goalId) = some g) :
    (addContribution cid date goalId amount note d).1.success = true ∧
    (addContribution cid date goalId amount note d).1.goal =
      some { g with
              contributions := g.contributions ++ [⟨cid, amount, date, note⟩],
              currentAmount := g.currentAmount + amount } ∧
    (amount < -g.currentAmount →
      ∃ g', (addContribution cid date goalId amount note d).1.goal = some g' ∧
        g'.currentAmount < 0) := by
  rw [addContribution, hfind]
  refine ⟨rfl, rfl, fun hneg => ⟨_, rfl, ?_⟩⟩
  simp only []
  linarith

/-- Witness for C9: contributing −50 to a goal holding 30 succeeds and
leaves `currentAmount = -20 < 0`. -/
theorem C9_contribution_unvalidated_witness :
    (addContribution "c2" "2025-02-01" "g1" (-50) none dTrip).1.success = true ∧
    (∃ g', (addContribution "c2" "2025-02-01" "g1" (-50) none dTrip).1.goal =
      some g' ∧ g'.currentAmount < 0) := by
  have h := C9_contribution_unvalidated "c2" "2025-02-01" "g1" (-50) none dTrip
    gTrip rfl
  exact ⟨h.1, h.2.2 (by norm_num [gTrip])⟩

/-! ### Analytics theorems -/

/-- C6: one budget with limit 500 and alertThreshold 80, current-month spend
510 in its category: `checkBudgetAlerts` returns exactly one insight of type
"warning", with the over-limit (≥ 100%) message variant,
`amounts = [510, 500]` and `amount = 10` (spent minus limit). -/
theorem C6_budget_exceeded_alert (nowYear nowMonth : Nat) (data : FinanceData)
    (b : Budget) (hb : data.budgets = [b]) (hlimit : b.limit = 500)
    (_hthresh : b.alertThreshold = 80)
    (hspend : (lookupRate (calculateSpendingByCategory
      (getCurrentMonthTransactions nowYear nowMonth data)) b.category).getD 0 =
      510) :
    checkBudgetAlerts nowYear nowMonth data =
      [{ type := "warning", message := budgetExceededMsg b.category,
         category := some b.category, amount := some 10,
         amounts := some [510, 500] }] := by
  simp only [checkBudgetAlerts, hb, List.foldl_cons, List.foldl_nil, hspend, hlimit]
  norm_num

/-- Witness for C6 on the concrete document `dBudget`. -/
theorem C6_budget_exceeded_alert_witness :
    checkBudgetAlerts 2025 3 dBudget =
      [{ type := "warning", message := budgetExceededMsg "Food",
         category := some "Food", amount := some 10,
         amounts := some [510, 500] }] :=
  C6_budget_exceeded_alert 2025 3 dBudget ⟨"Food", 500, 0, 80⟩ rfl rfl rfl rfl

/-- C7: `analyzeSpending` ranks expense categories descending by
current-month amount with ties broken by stable input order, and returns at
most the top 5: with totals A = 300, B = 300, C = 100 (A's first expense
preceding B's, which the insertion-ordered category map records),
`topCategories` is exactly A, then B, then C. -/
theorem C7_top_categories_ranking (nowYear nowMonth : Nat) (data : FinanceData)
    (A B C : String) (hcat : calculateSpendingByCategory
      (getCurrentMonthTransactions nowYear nowMonth data) =
      [(A, 300), (B, 300), (C, 100)]) :
    (analyzeSpending nowYear nowMonth data).topCategories =
      [(A, 300), (B, 300), (C, 100)] ∧
    ∀ d' : FinanceData,
      ((analyzeSpending nowYear nowMonth d').topCategories).length ≤ 5 := by
  constructor
  · simp only [analyzeSpending, hcat, sortByAmountDesc, List.foldr,
      insertByAmountDesc]
    norm_num [List.take]
  · intro d'
    simp only [analyzeSpending]
    exact List.length_take_le 5 _

/-- Witness for C7 on the concrete document `dTopCat`. -/
theorem C7_top_categories_ranking_witness :
    (analyzeSpending 2025 3 dTopCat).topCategories =
      [("Food", 300), ("Travel", 300), ("Gas", 100)] :=
  (C7_top_categories_ranking 2025 3 dTopCat "Food" "Travel" "Gas" rfl).1

/-! ### Monthly-summary export theorems -/

theorem updateIfPresent_keys (md : List ((Nat × Nat) × MonthAgg)) (k : Nat × Nat)
    (f : MonthAgg → MonthAgg) :
    (updateIfPresent md k f).map Prod.fst = md.map Prod.fst := by
  induction md with
  | nil => rfl
  | cons p rest ih =>
    obtain ⟨k', v⟩ := p
    rw [updateIfPresent]
    by_cases h : k' = k
    · rw [if_pos h]
      simp
    · rw [if_neg h]
      simp [ih]

theorem updateIfPresent_eq_map {md : List ((Nat × Nat) × MonthAgg)}
    {k : Nat × Nat} {f : MonthAgg → MonthAgg} (h : (md.map Prod.fst).Nodup) :
    updateIfPresent md k f = md.map (fun p => if p.1 = k then (p.1, f p.2) else p) := by
  induction md with
  | nil => rfl
  | cons p rest ih =>
    obtain ⟨k', v⟩ := p
    rw [List.map_cons, List.nodup_cons] at h
    rw [updateIfPresent, List.map_cons]
    by_cases hk : k' = k
    · rw [if_pos hk]
      simp only [if_pos hk]
      congr 1
      have hrest : ∀ p ∈ rest, ¬ (p.1 = k) := by
        intro q hq hqk
        apply h.1
        have hm : q.1 ∈ List.map Prod.fst rest := List.mem_map_of_mem Prod.fst hq
        rwa [hqk, ← hk] at hm
      calc rest = rest.map id := (List.map_id rest).symm
        _ = rest.map (fun p => if p.1 = k then (p.1, f p.2) else p) := by
            apply List.map_congr_left
            intro p hp
            rw [if_neg (hrest p hp)]
            rfl
    · rw [if_neg hk]
      simp only [if_neg hk]
      rw [ih h.2]

theorem foldl_addTxAgg_char (l : List Transaction) : ∀ a : MonthAgg,
    l.foldl addTxAgg a =
      ⟨a.income + ((l.filter (fun t => t.type == TxType.income)).map
          (fun t => t.amount)).sum,
       a.expenses + ((l.filter (fun t => !(t.type == TxType.income))).map
          (fun t => t.amount)).sum,
       a.transactions + l.length⟩ := by
  induction l with
  | nil => intro a; simp
  | cons t ts ih =>
    intro a
    rw [List.foldl_cons, ih]
    cases ht : t.type == TxType.income <;>
      simp [addTxAgg, ht, List.filter_cons, MonthAgg.mk.injEq] <;>
      ring_nf <;> constructor <;> ring_nf

theorem foldl_applyTx_char (txs : List Transaction) :
    ∀ md : List ((Nat × Nat) × MonthAgg), (md.map Prod.fst).Nodup →
      txs.foldl applyTxToMonthly md =
        md.map (fun p => (p.1,
          (txs.filter (fun t => (t.date.year, t.date.month) == p.1)).foldl
            addTxAgg p.2)) := by
  induction txs with
  | nil =>
    intro md _
    simp
  | cons t ts ih =>
    intro md hnd
    rw [List.foldl_cons]
    have hnd' : ((applyTxToMonthly md t).map Prod.fst).Nodup := by
      unfold applyTxToMonthly
      rw [updateIfPresent_keys]
      exact hnd
    rw [ih _ hnd']
    unfold applyTxToMonthly
    rw [updateIfPresent_eq_map hnd, List.map_map]
    apply List.map_congr_left
    intro p _
    by_cases hp : p.1 = (t.date.year, t.date.month)
    · have hbeq : ((t.date.year, t.date.month) == p.1) = true := by
        simp [hp]
      simp only [Function.comp, if_pos hp, List.filter_cons, hbeq, if_pos]
      simp [List.foldl_cons]
    · have hbeq : ((t.date.year, t.date.month) == p.1) = false := by
        rw [beq_eq_false_iff_ne]
        exact fun e => hp e.symm
      simp only [Function.comp, if_neg hp, List.filter_cons, hbeq]
      simp

theorem initMonthly_keys_nodup (y : Nat) :
    ((initMonthly y).map Prod.fst).Nodup := by
  unfold initMonthly
  rw [List.map_map]
  have : (Prod.fst ∘ fun month => (((y, month + 1) : Nat × Nat),
      (⟨0, 0, 0⟩ : MonthAgg))) = fun month => ((y, month + 1) : Nat × Nat) := rfl
  rw [this]
  apply List.Nodup.map
  · intro a b hab
    simpa using hab
  · exact List.nodup_range 12

theorem filter_year_month (data : FinanceData) (y m : Nat) :
    (data.transactions.filter (fun t => t.date.year == y)).filter
      (fun t => (t.date.year, t.date.month) == (y, m)) = monthTxs y m data := by
  rw [List.filter_filter]
  unfold monthTxs
  apply List.filter_congr
  intro t _
  rw [Bool.eq_iff_iff]
  simp only [Bool.and_eq_true, beq_iff_eq, Prod.mk.injEq]
  constructor
  · rintro ⟨⟨h1, h2⟩, _⟩
    exact ⟨h1, h2⟩
  · rintro ⟨h1, h2⟩
    exact ⟨⟨h1, h2⟩, h1⟩

theorem monthlySummaryData_char (targetYear : Nat) (data : FinanceData) :
    monthlySummaryData targetYear data =
      (List.range 12).map (fun i => ((targetYear, i + 1),
        (⟨monthIncome targetYear (i + 1) data, monthExpenses targetYear (i + 1) data,
          monthCount targetYear (i + 1) data⟩ : MonthAgg))) := by
  unfold monthlySummaryData
  rw [foldl_applyTx_char _ _ (initMonthly_keys_nodup _)]
  unfold initMonthly
  rw [List.map_map]
  apply List.map_congr_left
  intro i _
  simp only [Function.comp]
  rw [foldl_addTxAgg_char, filter_year_month]
  unfold monthIncome monthExpenses monthCount
  simp

theorem foldl_totals_char (l : List ((Nat × Nat) × MonthAgg)) : ∀ acc : MonthAgg,
    l.foldl (fun acc p =>
      ({ income := acc.income + p.2.income, expenses := acc.expenses + p.2.expenses,
         transactions := acc.transactions + p.2.transactions } : MonthAgg)) acc =
      ⟨acc.income + (l.map (fun p => p.2.income)).sum,
       acc.expenses + (l.map (fun p => p.2.expenses)).sum,
       acc.transactions + (l.map (fun p => p.2.transactions)).sum⟩ := by
  induction l with
  | nil => intro acc; simp
  | cons p ps ih =>
    intro acc
    rw [List.foldl_cons, ih]
    simp only [List.map_cons, List.sum_cons, MonthAgg.mk.injEq]
    refine ⟨by ring, by ring, by omega⟩

/-- C8: for every target year and ledger, the monthly-summary export consists
of exactly one data row per month of that year, in calendar order — months
with no activity showing zero income, zero expenses and zero transaction
count — followed by exactly one trailing TOTAL row whose income, expenses,
net and count are the column sums of the 12 month rows. -/
theorem C8_monthly_summary_shape (targetYear : Nat) (data : FinanceData) :
    exportMonthlySummaryRows targetYear data =
      ((List.range 12).map (fun i =>
        ({ label := RowLabel.month targetYear (i + 1),
           income := monthIncome targetYear (i + 1) data,
           expenses := monthExpenses targetYear (i + 1) data,
           net := monthIncome targetYear (i + 1) data -
             monthExpenses targetYear (i + 1) data,
           transactions := monthCount targetYear (i + 1) data } : SummaryRow))) ++
      [{ label := RowLabel.total,
         income := ((List.range 12).map
           (fun i => monthIncome targetYear (i + 1) data)).sum,
         expenses := ((List.range 12).map
           (fun i => monthExpenses targetYear (i + 1) data)).sum,
         net := ((List.range 12).map
             (fun i => monthIncome targetYear (i + 1) data)).sum -
           ((List.range 12).map
             (fun i => monthExpenses targetYear (i + 1) data)).sum,
         transactions := ((List.range 12).map
           (fun i => monthCount targetYear (i + 1) data)).sum }] := by
  simp only [exportMonthlySummaryRows, monthlySummaryData_char, foldl_totals_char,
    List.map_map]
  simp [Function.comp_def]

/-! ### Recurring-transaction theorems -/

theorem processEntry_due {today : MDate} {r : RecurringTransaction}
    (h : r.nextDue.encode ≤ today.encode) :
    processEntry today r =
      (materializeRec r :: (processEntry today (advanceRec r)).1,
       (processEntry today (advanceRec r)).2) := by
  rw [processEntry]
  simp [h]

theorem processEntry_notDue {today : MDate} {r : RecurringTransaction}
    (h : ¬ r.nextDue.encode ≤ today.encode) :
    processEntry today r = ([], r) := by
  rw [processEntry]
  simp [h]

theorem advanceRec_frequency (r : RecurringTransaction) :
    (advanceRec r).frequency = r.frequency := rfl

/-- Catch-up unfolding for a monthly entry whose `nextDue` is exactly three
calendar months before `today`: the loop runs four times (the due dates are
3, 2, 1 months ago and today itself, and the loop condition is inclusive). -/
theorem processEntry_monthly_3mo (start today : MDate) (r : RecurringTransaction)
    (hfreq : r.frequency = .monthly) (hnext : r.nextDue = start)
    (htoday : today = calculateNextDueDate (calculateNextDueDate
      (calculateNextDueDate start .monthly) .monthly) .monthly) :
    processEntry today r =
      ([materializeRec r, materializeRec (advanceRec r),
        materializeRec (advanceRec (advanceRec r)),
        materializeRec (advanceRec (advanceRec (advanceRec r)))],
       advanceRec (advanceRec (advanceRec (advanceRec r)))) ∧
    today.encode <
      (advanceRec (advanceRec (advanceRec (advanceRec r)))).nextDue.encode := by
  have hn1 : (advanceRec r).nextDue = calculateNextDueDate start .monthly := by
    show calculateNextDueDate r.nextDue r.frequency = _
    rw [hnext, hfreq]
  have hn2 : (advanceRec (advanceRec r)).nextDue =
      calculateNextDueDate (calculateNextDueDate start .monthly) .monthly := by
    show calculateNextDueDate (advanceRec r).nextDue (advanceRec r).frequency = _
    rw [hn1, advanceRec_frequency, hfreq]
  have hn3 : (advanceRec (advanceRec (advanceRec r))).nextDue =
      calculateNextDueDate (calculateNextDueDate
        (calculateNextDueDate start .monthly) .monthly) .monthly := by
    show calculateNextDueDate (advanceRec (advanceRec r)).nextDue
      (advanceRec (advanceRec r)).frequency = _
    rw [hn2, advanceRec_frequency, advanceRec_frequency, hfreq]
  have hn4 : (advanceRec (advanceRec (advanceRec (advanceRec r)))).nextDue =
      calculateNextDueDate (calculateNextDueDate (calculateNextDueDate
        (calculateNextDueDate start .monthly) .monthly) .monthly) .monthly := by
    show calculateNextDueDate (advanceRec (advanceRec (advanceRec r))).nextDue
      (advanceRec (advanceRec (advanceRec r))).frequency = _
    rw [hn3, advanceRec_frequency, advanceRec_frequency, advanceRec_frequency, hfreq]
  have e0 := encode_lt_calculateNextDueDate start .monthly
  have e1 := encode_lt_calculateNextDueDate
    (calculateNextDueDate start .monthly) .monthly
  have e2 := encode_lt_calculateNextDueDate
    (calculateNextDueDate (calculateNextDueDate start .monthly) .monthly) .monthly
  have e3 := encode_lt_calculateNextDueDate
    (calculateNextDueDate (calculateNextDueDate
      (calculateNextDueDate start .monthly) .monthly) .monthly) .monthly
  have c0 : r.nextDue.encode ≤ today.encode := by rw [hnext, htoday]; omega
  have c1 : (advanceRec r).nextDue.encode ≤ today.encode := by
    rw [hn1, htoday]; omega
  have c2 : (advanceRec (advanceRec r)).nextDue.encode ≤ today.encode := by
    rw [hn2, htoday]; omega
  have c3 : (advanceRec (advanceRec (advanceRec r))).nextDue.encode ≤
      today.encode := by
    rw [hn3, htoday]
  have c4 : ¬ ((advanceRec (advanceRec (advanceRec (advanceRec r)))).nextDue.encode ≤
      today.encode) := by
    rw [hn4, htoday]; omega
  refine ⟨?_, by rw [hn4, htoday]; omega⟩
  rw [processEntry_due c0, processEntry_due c1, processEntry_due c2,
    processEntry_due c3, processEntry_notDue c4]

/-- C2 (counterexample): a monthly recurring entry with
`startDate = nextDue = 2024-12-01`, exactly 3 calendar months before today
(2025-03-01), is materialized 4 times by one call — the due dates 2024-12-01,
2025-01-01, 2025-02-01 and 2025-03-01 (today, inclusive) — not the claimed 3. -/
theorem C2_counterexample :
    (processRecurringTransactions ⟨2025, 3, 1⟩ dRent).1.1 = 4 ∧
    (processRecurringTransactions ⟨2025, 3, 1⟩ dRent).1.1 ≠ 3 := by
  have hp := processEntry_monthly_3mo ⟨2024, 12, 1⟩ ⟨2025, 3, 1⟩ rRent rfl rfl
    (by decide)
  have hact : rRent.active = true := rfl
  simp only [processRecurringTransactions, dRent, List.foldl_cons, List.foldl_nil,
    hact, if_true, hp.1]
  refine ⟨by simp, by simp⟩

/-- C2 (amended): for an active monthly recurring entry whose
`startDate = nextDue` lies exactly 3 calendar months in the past, a single
`processRecurringTransactions` call materializes exactly 4 transactions
(the loop `while (nextDue <= today)` is inclusive of today, so the due dates
are 3, 2, 1 months ago and today itself) and leaves `nextDue` strictly after
today. -/
theorem C2_monthly_catchup_four (start today : MDate) (r : RecurringTransaction)
    (d : FinanceData) (hact : r.active = true) (hfreq : r.frequency = .monthly)
    (_hstart : r.startDate = start) (hnext : r.nextDue = start)
    (htoday : today = calculateNextDueDate (calculateNextDueDate
      (calculateNextDueDate start .monthly) .monthly) .monthly)
    (hlist : d.recurringTransactions = [r]) :
    (processRecurringTransactions today d).1.1 = 4 ∧
    ∃ r', (processRecurringTransactions today d).2.recurringTransactions = [r'] ∧
      today.encode < r'.nextDue.encode := by
  have hp := processEntry_monthly_3mo start today r hfreq hnext htoday
  simp only [processRecurringTransactions, hlist, List.foldl_cons, List.foldl_nil,
    hact, if_true, hp.1]
  exact ⟨by simp, ⟨_, by simp, hp.2⟩⟩

/-- Witness for C2 (amended) at the concrete entry `rRent` processed on
2025-03-01 (3 months after its start). -/
theorem C2_monthly_catchup_four_witness :
    (processRecurringTransactions ⟨2025, 3, 1⟩ dRent).1.1 = 4 ∧
    ∃ r', (processRecurringTransactions ⟨2025, 3, 1⟩
        dRent).2.recurringTransactions = [r'] ∧
      (⟨2025, 3, 1⟩ : MDate).encode < r'.nextDue.encode :=
  C2_monthly_catchup_four ⟨2024, 12, 1⟩ ⟨2025, 3, 1⟩ rRent dRent rfl rfl rfl rfl
    (by decide) rfl

/-- Witness for C10 at a concrete table: `"EUR"` is absent and `"GBP"` is
mapped to 0, both get rate 1, and the conversion still returns a value. -/
theorem C10_rate_substitution_total_witness :
    (rateOr1 [("GBP", (0 : ℚ))] (jsToUpper "eur") = 1 ∧
      rateOr1 [("GBP", (0 : ℚ))] (jsToUpper "gbp") = 1 ∧
      rateOr1 [("GBP", (0 : ℚ))] (jsToUpper "eur") ≠ 0) ∧
    convertCurrency 5 "eur" "gbp" (some [("GBP", (0 : ℚ))]) =
      { convertedAmount := round2 (5 / rateOr1 [("GBP", (0 : ℚ))] (jsToUpper "eur") *
          rateOr1 [("GBP", (0 : ℚ))] (jsToUpper "gbp")),
        rate := round4 (rateOr1 [("GBP", (0 : ℚ))] (jsToUpper "gbp") /
          rateOr1 [("GBP", (0 : ℚ))] (jsToUpper "eur")) } := by
  have h := C10_rate_substitution_total [("GBP", (0 : ℚ))] "eur" "gbp" 5
    (by decide)
  refine ⟨⟨h.1 ?_, h.2.1 ?_, h.2.2.1⟩, h.2.2.2⟩
  · left
    decide
  · right
    show lookupRate [("GBP", (0 : ℚ))] "GBP" = some 0
    rw [lookupRate]
    simp

end MyFinPal
